import Mathlib

/-!
Shallow embedding of src/src/libs/protobuf_comm/client.cpp
(ProtobufStreamClient of the protobuf_comm library).

Each asynchronous completion handler of the C++ class is translated into a
pure Lean function from the handler inputs and the client state to a
HandlerResult: the updated state, the list of signals fired (in order), and
the list of asynchronous socket operations issued (in order).  Raw pointers
are modelled as natural-number identities; boost error codes as naturals
with 0 the default-constructed (success) code; realloc is modelled by an
oracle argument giving the pointer it returned (none for NULL).
-/

namespace ProtobufComm

/-- Boost error codes, modelled as naturals; 0 is the default-constructed
error_code, meaning success. -/
abbrev ErrCode := Nat

/-- errc::not_enough_memory (ENOMEM). -/
def notEnoughMemory : ErrCode := 12

/-- Signals fired through the boost::signals2 members sig_connected_,
sig_disconnected_ and sig_rcvd_. -/
inductive Signal where
  | connectedSig : Signal
  | disconnectedSig (err : ErrCode) : Signal
  | rcvdSig (comp_id msg_type : Nat) : Signal
  deriving DecidableEq

/-- Asynchronous operations issued on the resolver / socket.  A payload
read records the buffer pointer it reads into and the byte count. -/
inductive AsyncOp where
  | resolveOp : AsyncOp
  | connectOp : AsyncOp
  | readHeaderOp : AsyncOp
  | readPayloadOp (buf : Nat) (n : Nat) : AsyncOp
  | writeOp (entry : Nat) : AsyncOp
  deriving DecidableEq

/-- The mutable fields of ProtobufStreamClient that the handlers touch.
QueueEntry objects are identified by naturals. -/
structure ClientState where
  connected_ : Bool
  socket_open_ : Bool
  outbound_active_ : Bool
  outbound_queue_ : List Nat
  in_data_size_ : Nat
  in_data_ : Nat
  deriving DecidableEq

/-- State established by the constructor: not connected, no write active,
1024-byte input buffer. -/
def initState : ClientState :=
  { connected_ := false, socket_open_ := false, outbound_active_ := false,
    outbound_queue_ := [], in_data_size_ := 1024, in_data_ := 0 }

/-- Result of running one handler: the new state, the signals fired and the
asynchronous operations issued, each in program order; destroyed lists the
QueueEntry objects deleted by the handler. -/
structure HandlerResult where
  state : ClientState
  sigs : List Signal := []
  ops : List AsyncOp := []
  destroyed : List Nat := []
  deriving DecidableEq

/-- ProtobufStreamClient::disconnect_nosig: shut down and close the socket,
clear the connected flag, fire nothing. -/
def disconnect_nosig (s : ClientState) : ClientState :=
  { s with socket_open_ := false, connected_ := false }

/-- ProtobufStreamClient::disconnect: disconnect_nosig, then fire
sig_disconnected_ with a default-constructed (no-error) code. -/
def disconnect (s : ClientState) : HandlerResult :=
  { state := disconnect_nosig s, sigs := [Signal.disconnectedSig 0] }

/-- ProtobufStreamClient::is_connected (inline accessor of connected_). -/
def is_connected (s : ClientState) : Bool := s.connected_

/-- ProtobufStreamClient::handle_resolve: on success issue async_connect;
on failure call disconnect() and then fire sig_disconnected_(err). -/
def handle_resolve (err : ErrCode) (s : ClientState) : HandlerResult :=
  if err = 0 then
    { state := s, ops := [AsyncOp.connectOp] }
  else
    let r := disconnect s
    { state := r.state, sigs := r.sigs ++ [Signal.disconnectedSig err] }

/-- ProtobufStreamClient::handle_connect: on success set connected_, arm the
header read (start_recv) and fire sig_connected_; on failure call
disconnect() and then fire sig_disconnected_(err). -/
def handle_connect (err : ErrCode) (s : ClientState) : HandlerResult :=
  if err = 0 then
    { state := { s with connected_ := true },
      sigs := [Signal.connectedSig], ops := [AsyncOp.readHeaderOp] }
  else
    let r := disconnect s
    { state := r.state, sigs := r.sigs ++ [Signal.disconnectedSig err] }

/-- ProtobufStreamClient::handle_read_header.  payload_size is the decoded
(host order) payload size from the received frame header; allocResult is
the pointer realloc returned when it was called (none for NULL).  On
success the handler always falls through to issue the payload read; on a
read error it does nothing. -/
def handle_read_header (error : ErrCode) (payload_size : Nat)
    (allocResult : Option Nat) (s : ClientState) : HandlerResult :=
  if error = 0 then
    let to_read := payload_size
    if to_read > s.in_data_size_ then
      match allocResult with
      | some new_data =>
        { state := { s with in_data_size_ := to_read, in_data_ := new_data },
          ops := [AsyncOp.readPayloadOp new_data to_read] }
      | none =>
        { state := s, sigs := [Signal.disconnectedSig notEnoughMemory],
          ops := [AsyncOp.readPayloadOp s.in_data_ to_read] }
    else
      { state := s, ops := [AsyncOp.readPayloadOp s.in_data_ to_read] }
  else
    { state := s }

/-- ProtobufStreamClient::handle_read_message: on success deserialize (via
the external registry), fire sig_rcvd_ and re-arm the header read; on a
read error it does nothing. -/
def handle_read_message (error : ErrCode) (comp_id msg_type : Nat)
    (s : ClientState) : HandlerResult :=
  if error = 0 then
    { state := s, sigs := [Signal.rcvdSig comp_id msg_type],
      ops := [AsyncOp.readHeaderOp] }
  else
    { state := s }

/-- ProtobufStreamClient::handle_write: delete the just-written entry; on
success pop and write the queue head if any, else clear outbound_active_;
on error fire sig_disconnected_(error). -/
def handle_write (error : ErrCode) (entry : Nat) (s : ClientState) :
    HandlerResult :=
  if error = 0 then
    match s.outbound_queue_ with
    | next :: rest =>
      { state := { s with outbound_queue_ := rest },
        ops := [AsyncOp.writeOp next], destroyed := [entry] }
    | [] =>
      { state := { s with outbound_active_ := false }, destroyed := [entry] }
  else
    { state := s, sigs := [Signal.disconnectedSig error],
      destroyed := [entry] }

/-- ProtobufStreamClient::send (outbound part, after serialization built the
entry): under outbound_mutex_, append to the queue if a write is active,
else mark a write active and issue it with this entry. -/
def send (entry : Nat) (s : ClientState) : HandlerResult :=
  if s.outbound_active_ then
    { state := { s with outbound_queue_ := s.outbound_queue_ ++ [entry] } }
  else
    { state := { s with outbound_active_ := true },
      ops := [AsyncOp.writeOp entry] }

/-- Events touching the outbound queue: a call to send, or the completion
of the in-flight async_write (handle_write) with a given error code for a
given entry. -/
inductive WriterEvent where
  | sendEv (entry : Nat) : WriterEvent
  | writeCompleteEv (err : ErrCode) (entry : Nat) : WriterEvent
  deriving DecidableEq

/-- One outbound-side event step. -/
def writerStep (s : ClientState) : WriterEvent → HandlerResult
  | WriterEvent.sendEv e => send e s
  | WriterEvent.writeCompleteEv err e => handle_write err e s

/-- Run a sequence of outbound events, collecting every asynchronous
operation issued, in order. -/
def runWriter : ClientState → List WriterEvent → ClientState × List AsyncOp
  | s, [] => (s, [])
  | s, ev :: evs =>
    let r := writerStep s ev
    let rest := runWriter r.state evs
    (rest.1, r.ops ++ rest.2)

/-- The entry carried by a write operation, if it is one. -/
def writeEntryOf : AsyncOp → Option Nat
  | AsyncOp.writeOp e => some e
  | _ => none

/-- The entries handed to async_write, in issue order. -/
def writtenEntries (ops : List AsyncOp) : List Nat :=
  ops.filterMap writeEntryOf

/-- The entry of a send event, if it is one. -/
def sentEntryOf : WriterEvent → Option Nat
  | WriterEvent.sendEv e => some e
  | _ => none

/-- The entries passed to send, in call order. -/
def sentEntries (evs : List WriterEvent) : List Nat :=
  evs.filterMap sentEntryOf

/-- Run a sequence of header-read completions, threading the client state:
each element gives the error code, the decoded payload_size and the realloc
oracle for that completion. -/
def runReceiveHeaders (s : ClientState) :
    List (ErrCode × Nat × Option Nat) → ClientState
  | [] => s
  | h :: rest =>
    runReceiveHeaders (handle_read_header h.1 h.2.1 h.2.2 s).state rest

/-- A connected client state with the constructor's buffer, used to
evaluate handlers at concrete inputs. -/
def connState : ClientState := { initState with connected_ := true }

/-- A connected client state with a write in flight and entries 6, 7
queued, used to evaluate the write path at concrete inputs. -/
def queuedState : ClientState :=
  { connState with outbound_active_ := true, outbound_queue_ := [6, 7] }

/-- C1: contrary to the claim, when the header announces a payload larger
than the buffer and realloc fails (returns NULL), handle_read_header fires
disconnected(not_enough_memory) but then still issues the payload read into
the old, 1024-byte buffer, and the client stays connected: the receive
cycle is not aborted. -/
theorem read_header_alloc_failure_still_reads :
    (handle_read_header 0 4096 none connState).ops
        = [AsyncOp.readPayloadOp connState.in_data_ 4096] ∧
    (handle_read_header 0 4096 none connState).state.in_data_size_ = 1024 ∧
    is_connected (handle_read_header 0 4096 none connState).state = true ∧
    (handle_read_header 0 4096 none connState).sigs
        = [Signal.disconnectedSig notEnoughMemory] := by
  decide

/-- C2: contrary to the claim, a read error at either stage leaves the
client fully unchanged: still connected, no disconnected signal fired, and
no read re-armed.  The two stages do agree with each other, but neither
transitions to Disconnected nor notifies. -/
theorem read_error_silently_ignored :
    handle_read_header 1 0 none connState
        = { state := connState } ∧
    handle_read_message 1 0 0 connState
        = { state := connState } ∧
    is_connected connState = true := by
  decide

/-- C3: contrary to the claim, a resolution failure fires the disconnected
notification twice (once with the no-error code from disconnect(), once
with the actual error), a connect failure does the same, and a read
failure fires it zero times. -/
theorem failure_notification_not_exactly_once :
    (handle_resolve 1 connState).sigs
        = [Signal.disconnectedSig 0, Signal.disconnectedSig 1] ∧
    (handle_connect 1 connState).sigs
        = [Signal.disconnectedSig 0, Signal.disconnectedSig 1] ∧
    (handle_read_header 1 0 none connState).sigs = [] ∧
    (handle_read_message 1 0 0 connState).sigs = [] := by
  decide

/-- C4: on a write error, handle_write fires disconnected(error), issues no
further write (draining stops), and leaves the outbound queue untouched:
the queued entries are neither written nor retried. -/
theorem handle_write_error_stops_draining (s : ClientState) (err : ErrCode)
    (entry : Nat) (he : err ≠ 0) :
    (handle_write err entry s).sigs = [Signal.disconnectedSig err] ∧
    (handle_write err entry s).ops = [] ∧
    (handle_write err entry s).state.outbound_queue_ = s.outbound_queue_ ∧
    (handle_write err entry s).state.outbound_active_ = s.outbound_active_ := by
  simp [handle_write, he]

/-- Witness for C4 at a concrete erroring write completion. -/
theorem handle_write_error_stops_draining_witness :
    (handle_write 1 5 queuedState).sigs = [Signal.disconnectedSig 1] ∧
    (handle_write 1 5 queuedState).ops = [] ∧
    (handle_write 1 5 queuedState).state.outbound_queue_
      = queuedState.outbound_queue_ ∧
    (handle_write 1 5 queuedState).state.outbound_active_
      = queuedState.outbound_active_ :=
  handle_write_error_stops_draining queuedState 1 5 (by decide)

/-- C7: on successful write completion, handle_write destroys the written
entry; with a non-empty queue it pops the head and issues the next write
with it; with an empty queue it clears the in-flight flag. -/
theorem handle_write_success_pops_next (s : ClientState) (entry : Nat) :
    (handle_write 0 entry s).destroyed = [entry] ∧
    (handle_write 0 entry s).sigs = [] ∧
    (s.outbound_queue_ = [] →
      (handle_write 0 entry s).ops = [] ∧
      (handle_write 0 entry s).state
        = { s with outbound_active_ := false }) ∧
    (∀ h t, s.outbound_queue_ = h :: t →
      (handle_write 0 entry s).ops = [AsyncOp.writeOp h] ∧
      (handle_write 0 entry s).state
        = { s with outbound_queue_ := t }) := by
  refine ⟨?_, ?_, ?_, ?_⟩
  · cases hq : s.outbound_queue_ <;> simp [handle_write, hq]
  · cases hq : s.outbound_queue_ <;> simp [handle_write, hq]
  · intro hq; simp [handle_write, hq]
  · intro h t hq; simp [handle_write, hq]

/-- Witness for C7 at a concrete successful completion with entries 6, 7
queued. -/
theorem handle_write_success_pops_next_witness :
    (handle_write 0 5 queuedState).ops = [AsyncOp.writeOp 6] ∧
    (handle_write 0 5 queuedState).state
      = { queuedState with outbound_queue_ := [7] } :=
  (handle_write_success_pops_next queuedState 5).2.2.2 6 [7] rfl

/-- C8: disconnect always fires exactly one disconnected(no-error) signal
and leaves the client reporting not connected, whatever the prior state
(socket already closed or client already disconnected included); a second
call behaves identically, so two calls in a row fire two notifications. -/
theorem disconnect_idempotent (s : ClientState) :
    (disconnect s).sigs = [Signal.disconnectedSig 0] ∧
    is_connected (disconnect s).state = false ∧
    (disconnect (disconnect s).state).sigs = [Signal.disconnectedSig 0] ∧
    is_connected (disconnect (disconnect s).state).state = false ∧
    ((disconnect s).sigs ++ (disconnect (disconnect s).state).sigs).length
      = 2 := by
  simp [disconnect, disconnect_nosig, is_connected]

/-- C10: a header whose payload fits the current buffer leaves the buffer
pointer and the recorded capacity unchanged (in fact the whole state), the
result does not depend on the realloc oracle (no reallocation occurs), and
the payload read is issued into the existing buffer. -/
theorem read_header_small_payload_reuses_buffer (s : ClientState) (n : Nat)
    (a : Option Nat) (h : n ≤ s.in_data_size_) :
    (handle_read_header 0 n a s).state = s ∧
    (handle_read_header 0 n a s).state.in_data_ = s.in_data_ ∧
    (handle_read_header 0 n a s).state.in_data_size_ = s.in_data_size_ ∧
    (∀ b : Option Nat, handle_read_header 0 n b s
        = handle_read_header 0 n a s) ∧
    (handle_read_header 0 n a s).ops
        = [AsyncOp.readPayloadOp s.in_data_ n] := by
  have hn : ¬ n > s.in_data_size_ := not_lt.mpr h
  refine ⟨?_, ?_, ?_, ?_, ?_⟩ <;>
    simp [handle_read_header, hn]

/-- Witness for C10 at a concrete 100-byte payload against the 1024-byte
initial buffer. -/
theorem read_header_small_payload_reuses_buffer_witness :
    (handle_read_header 0 100 (some 77) connState).state = connState ∧
    (handle_read_header 0 100 (some 77) connState).state.in_data_
      = connState.in_data_ ∧
    (handle_read_header 0 100 (some 77) connState).state.in_data_size_
      = connState.in_data_size_ ∧
    (∀ b : Option Nat, handle_read_header 0 100 b connState
        = handle_read_header 0 100 (some 77) connState) ∧
    (handle_read_header 0 100 (some 77) connState).ops
        = [AsyncOp.readPayloadOp connState.in_data_ 100] :=
  read_header_small_payload_reuses_buffer connState 100 (some 77) (by decide)

/-- One header completion never shrinks the input buffer capacity. -/
theorem read_header_capacity_mono (e : ErrCode) (p : Nat) (a : Option Nat)
    (s : ClientState) :
    s.in_data_size_ ≤ (handle_read_header e p a s).state.in_data_size_ := by
  by_cases he : e = 0
  · by_cases hp : p > s.in_data_size_
    · cases a with
      | none => simp [handle_read_header, he, hp]
      | some q => simp [handle_read_header, he, hp]; omega
    · simp [handle_read_header, he, hp]
  · simp [handle_read_header, he]

/-- Across any sequence of header completions the capacity never
decreases. -/
theorem runReceiveHeaders_capacity_mono
    (hdrs : List (ErrCode × Nat × Option Nat)) :
    ∀ s : ClientState,
      s.in_data_size_ ≤ (runReceiveHeaders s hdrs).in_data_size_ := by
  induction hdrs with
  | nil => intro s; simp [runReceiveHeaders]
  | cons h rest ih =>
    intro s
    exact le_trans (read_header_capacity_mono h.1 h.2.1 h.2.2 s)
      (ih (handle_read_header h.1 h.2.1 h.2.2 s).state)

/-- C5: the input buffer capacity is monotonically non-decreasing, both over
one header completion and over any sequence of them; when the payload
exceeds the current capacity and the reallocation succeeds the buffer is
grown to exactly the payload size, so after a successfully processed header
of size n the capacity is at least n. -/
theorem input_buffer_capacity_monotone (s : ClientState) (n : Nat)
    (a : Option Nat) (hdrs : List (ErrCode × Nat × Option Nat)) :
    s.in_data_size_ ≤ (handle_read_header 0 n a s).state.in_data_size_ ∧
    (n > s.in_data_size_ → a.isSome →
      (handle_read_header 0 n a s).state.in_data_size_ = n) ∧
    (n ≤ s.in_data_size_ ∨ a.isSome →
      n ≤ (handle_read_header 0 n a s).state.in_data_size_) ∧
    s.in_data_size_ ≤ (runReceiveHeaders s hdrs).in_data_size_ := by
  refine ⟨read_header_capacity_mono 0 n a s, ?_, ?_, ?_⟩
  · intro hn hsome
    obtain ⟨q, rfl⟩ := Option.isSome_iff_exists.mp hsome
    simp [handle_read_header, hn]
  · rintro (hle | hsome)
    · exact le_trans hle (read_header_capacity_mono 0 n a s)
    · by_cases hn : n > s.in_data_size_
      · obtain ⟨q, rfl⟩ := Option.isSome_iff_exists.mp hsome
        simp [handle_read_header, hn]
      · push_neg at hn
        exact le_trans hn (read_header_capacity_mono 0 n a s)
  · exact runReceiveHeaders_capacity_mono hdrs s

/-- Witness for C5: a 4096-byte payload grows the 1024-byte buffer to
exactly 4096 bytes, and a later smaller header leaves capacity at least at
the starting value. -/
theorem input_buffer_capacity_monotone_witness :
    (handle_read_header 0 4096 (some 1) connState).state.in_data_size_
      = 4096 ∧
    connState.in_data_size_ ≤
      (runReceiveHeaders connState
        [(0, 4096, some 1), (0, 100, some 2)]).in_data_size_ := by
  have h := input_buffer_capacity_monotone connState 4096 (some 1)
    [(0, 4096, some 1), (0, 100, some 2)]
  exact ⟨h.2.1 (by decide) (by decide), h.2.2.2⟩

/-- FIFO invariant of the outbound path: provided the in-flight flag being
clear implies an empty queue, the entries handed to async_write followed by
the entries still queued equal the initial queue followed by the entries
passed to send, in order. -/
theorem runWriter_fifo (evs : List WriterEvent) :
    ∀ s : ClientState, (s.outbound_active_ = false → s.outbound_queue_ = []) →
      writtenEntries (runWriter s evs).2
          ++ (runWriter s evs).1.outbound_queue_
        = s.outbound_queue_ ++ sentEntries evs := by
  induction evs with
  | nil => intro s _; simp [runWriter, writtenEntries, sentEntries]
  | cons ev rest ih =>
    intro s h
    cases ev with
    | sendEv e =>
      by_cases ha : s.outbound_active_
      · have ihs := ih { s with outbound_queue_ := s.outbound_queue_ ++ [e] }
          (by intro hf; rw [show ({ s with outbound_queue_ :=
              s.outbound_queue_ ++ [e] } : ClientState).outbound_active_
              = s.outbound_active_ from rfl, ha] at hf; cases hf)
        simp only [runWriter, writerStep, send, ha, if_true,
          writtenEntries, sentEntries, List.filterMap_append,
          List.filterMap_cons, sentEntryOf, List.append_assoc] at ihs ⊢
        simpa using ihs
      · have hq := h (by simpa using ha)
        have ihs := ih { s with outbound_active_ := true }
          (by intro hf; simp at hf)
        simp only [runWriter, writerStep, send, ha, if_false,
          Bool.false_eq_true, writtenEntries, sentEntries,
          List.filterMap_append, List.filterMap_cons, sentEntryOf,
          writeEntryOf] at ihs ⊢
        simp only [hq] at ihs ⊢
        simpa using ihs
    | writeCompleteEv err e =>
      by_cases herr : err = 0
      · cases hq : s.outbound_queue_ with
        | nil =>
          have ihs := ih { s with outbound_active_ := false }
            (by intro _; simpa using hq)
          simp only [runWriter, writerStep, handle_write, herr, if_true, hq,
            writtenEntries, sentEntries, List.filterMap_append,
            List.filterMap_cons, sentEntryOf] at ihs ⊢
          simpa using ihs
        | cons next restq =>
          have ihs := ih { s with outbound_queue_ := restq }
            (by intro hf
                have : s.outbound_queue_ = [] := h (by simpa using hf)
                rw [hq] at this; cases this)
          simp only [runWriter, writerStep, handle_write, herr, if_true, hq,
            writtenEntries, sentEntries, List.filterMap_append,
            List.filterMap_cons, sentEntryOf, writeEntryOf] at ihs ⊢
          simpa using ihs
      · have ihs := ih s h
        simp only [runWriter, writerStep, handle_write, herr, if_false,
          writtenEntries, sentEntries, List.filterMap_append,
          List.filterMap_cons, sentEntryOf] at ihs ⊢
        simpa using ihs

/-- C6: send issues the write immediately and sets the in-flight flag when
no write is active, and otherwise appends the entry to the queue tail; and
from an empty initial queue the entries handed to async_write (followed by
those still queued) equal the entries passed to send in call order, so
sequential sends are written in submission order. -/
theorem send_fifo_order (s : ClientState) (e : Nat) (evs : List WriterEvent)
    (hq : s.outbound_queue_ = []) :
    (s.outbound_active_ = false →
        (send e s).ops = [AsyncOp.writeOp e] ∧
        (send e s).state.outbound_active_ = true ∧
        (send e s).state.outbound_queue_ = s.outbound_queue_) ∧
    (s.outbound_active_ = true →
        (send e s).ops = [] ∧
        (send e s).state.outbound_queue_ = s.outbound_queue_ ++ [e]) ∧
    writtenEntries (runWriter s evs).2
        ++ (runWriter s evs).1.outbound_queue_
      = sentEntries evs := by
  refine ⟨?_, ?_, ?_⟩
  · intro ha; simp [send, ha]
  · intro ha; simp [send, ha]
  · have h := runWriter_fifo evs s (by intro _; exact hq)
    rw [hq] at h
    simpa using h

/-- A concrete event trace: three sequential sends 1, 2, 3 interleaved with
their successful write completions. -/
def fifoTrace : List WriterEvent :=
  [WriterEvent.sendEv 1, WriterEvent.writeCompleteEv 0 1,
   WriterEvent.sendEv 2, WriterEvent.sendEv 3,
   WriterEvent.writeCompleteEv 0 2, WriterEvent.writeCompleteEv 0 3]

/-- Witness for C6: on the concrete trace sending 1, 2, 3 the writes are
issued exactly in the order 1, 2, 3, and the first send issues its write
immediately. -/
theorem send_fifo_order_witness :
    writtenEntries (runWriter initState fifoTrace).2
        ++ (runWriter initState fifoTrace).1.outbound_queue_
      = sentEntries fifoTrace ∧
    (send 1 initState).ops = [AsyncOp.writeOp 1] ∧
    writtenEntries (runWriter initState fifoTrace).2 = [1, 2, 3] := by
  have h := send_fifo_order initState 1 fifoTrace rfl
  exact ⟨h.2.2, (h.1 rfl).1, by decide⟩

/-- While a write stays marked in flight, a run of send events issues no
write operation, keeps the flag set, and only appends to the queue. -/
theorem runWriter_sends_only_no_write (evs : List WriterEvent) :
    ∀ s : ClientState, s.outbound_active_ = true →
      (∀ ev ∈ evs, ∃ n, ev = WriterEvent.sendEv n) →
      (runWriter s evs).2 = [] ∧
      (runWriter s evs).1.outbound_active_ = true ∧
      (runWriter s evs).1.outbound_queue_
        = s.outbound_queue_ ++ sentEntries evs := by
  induction evs with
  | nil => intro s ha _; simp [runWriter, sentEntries, ha]
  | cons ev rest ih =>
    intro s ha hall
    obtain ⟨n, rfl⟩ := hall ev (List.mem_cons_self ev rest)
    have ihs := ih { s with outbound_queue_ := s.outbound_queue_ ++ [n] }
      (by simpa using ha)
      (fun e he => hall e (List.mem_cons_of_mem _ he))
    simp only [runWriter, writerStep, send, ha, if_true, sentEntries,
      List.filterMap_cons, sentEntryOf] at ihs ⊢
    refine ⟨by simpa using ihs.1, ihs.2.1, ?_⟩
    rw [ihs.2.2]
    simp

/-- C9: after a write completes with an error the in-flight flag stays set
and the queued entries stay queued, so any following sequence of send calls
only appends to the queue and never issues another write. -/
theorem write_error_wedges_outbound (s : ClientState) (err : ErrCode)
    (entry : Nat) (evs : List WriterEvent) (he : err ≠ 0)
    (ha : s.outbound_active_ = true)
    (hsends : ∀ ev ∈ evs, ∃ n, ev = WriterEvent.sendEv n) :
    (handle_write err entry s).state.outbound_active_ = true ∧
    (handle_write err entry s).state.outbound_queue_ = s.outbound_queue_ ∧
    (runWriter (handle_write err entry s).state evs).2 = [] ∧
    (runWriter (handle_write err entry s).state evs).1.outbound_active_
      = true ∧
    (runWriter (handle_write err entry s).state evs).1.outbound_queue_
      = s.outbound_queue_ ++ sentEntries evs := by
  have hst : (handle_write err entry s).state = s := by
    simp [handle_write, he]
  rw [hst]
  have h := runWriter_sends_only_no_write evs s ha hsends
  exact ⟨ha, rfl, h.1, h.2.1, h.2.2⟩

/-- Witness for C9: after an erroring write completion on a client with
entries 6, 7 queued, two further sends 8 and 9 only grow the queue and no
write is issued. -/
theorem write_error_wedges_outbound_witness :
    (handle_write 1 5 queuedState).state.outbound_active_ = true ∧
    (handle_write 1 5 queuedState).state.outbound_queue_
      = queuedState.outbound_queue_ ∧
    (runWriter (handle_write 1 5 queuedState).state
        [WriterEvent.sendEv 8, WriterEvent.sendEv 9]).2 = [] ∧
    (runWriter (handle_write 1 5 queuedState).state
        [WriterEvent.sendEv 8, WriterEvent.sendEv 9]).1.outbound_active_
      = true ∧
    (runWriter (handle_write 1 5 queuedState).state
        [WriterEvent.sendEv 8, WriterEvent.sendEv 9]).1.outbound_queue_
      = queuedState.outbound_queue_
          ++ sentEntries [WriterEvent.sendEv 8, WriterEvent.sendEv 9] :=
  write_error_wedges_outbound queuedState 1 5
    [WriterEvent.sendEv 8, WriterEvent.sendEv 9] (by decide) (by decide)
    (by intro ev hev
        simp only [List.mem_cons, List.not_mem_nil, or_false] at hev
        rcases hev with rfl | rfl
        · exact ⟨8, rfl⟩
        · exact ⟨9, rfl⟩)

end ProtobufComm
